import Mathlib

/-!
Verification of the qjson streaming JSON parser (src/qjson.hpp).

The C++ tree of `std::shared_ptr<JsonData>` nodes is embedded as an arena
(`List JsonData`) addressed by stable indices; a handle (`ov_shared_ptr`) is an
`Option Nat` (`none` models the null pointer).  Thrown `std::runtime_error`s are
modelled by `Except JErr`; the distinguished value `JErr.nullDeref` marks a
place where the C++ dereferences a null pointer (undefined behavior, not a
thrown error, so it gets its own marker), and `JErr.danglingHandle` is a model
artifact for an arena index that is out of range (a live `shared_ptr` cannot
dangle, and parser-produced handles never hit this case).
-/

deriving instance DecidableEq for Except

namespace QJson

/-- Embeds `enum struct JsonType` (qjson.hpp lines 17-22). -/
inductive JsonType
  | STRING
  | OBJECT
  | ARRAY
  | UNINIT
deriving DecidableEq

/-- Embeds `class JsonData` (lines 155-187): the node payloads.  `object_data_`
and `array_data_` are null-initialized in the C++ (`= nullptr`), embedded as
`Option`; children are handles, i.e. arena indices.  The C++ `unordered_map` is
embedded as an association list in insertion order (only `find`/`insert`/`erase`
are used, so the hash order is unobservable). -/
structure JsonData where
  key_ : String := ""
  type_ : JsonType := .UNINIT
  string_data_ : String := ""
  object_data_ : Option (List (String × Nat)) := none
  array_data_ : Option (List Nat) := none
deriving DecidableEq

/-- Fresh node of a given kind: `ov_shared_ptr<JsonData>(JsonType t)` /
default-construction followed by assigning `type_` (lines 33, 398-404). -/
def mkNode (t : JsonType) : JsonData := { type_ := t }

/-- Scalar node construction: default node, then `type_ = STRING` and
`string_data_ = text_` (lines 362-364, 375-377). -/
def mkTextNode (s : String) : JsonData := { type_ := .STRING, string_data_ := s }

/-- Error taxonomy: one constructor per distinct `std::runtime_error` message
family in the source, plus the two model markers described in the header. -/
inductive JErr
  | nullHandle
  | notAnObject
  | notAnArray
  | notAScalar
  | keyNotFound
  | outOfRange
  | missingKey
  | invalidContainer
  | unbalancedBrackets
  | bracketMismatch
  | unclosedBracket (b : Char)
  | invalidNumber (t : String)
  | invalidBool (t : String)
  | nullDeref
  | danglingHandle
deriving DecidableEq

/-- Embeds `isClosingBracket` (line 250). -/
def isClosingBracket (c : Char) : Bool := c == '\x7d' || c == ']'

/-- Embeds `isOpeningBracket` (line 251). -/
def isOpeningBracket (c : Char) : Bool := c == '\x7b' || c == '['

/-- Embeds `isValidBracket` (line 252). -/
def isValidBracket (c : Char) : Bool := isOpeningBracket c || isClosingBracket c

/-- Embeds `sameBracketType` (lines 254-259). -/
def sameBracketType (c1 c2 : Char) : Bool :=
  ((c1 == '[') || (c1 == ']')) == ((c2 == '[') || (c2 == ']'))

/-- Embeds `isNumberPart` (line 261). -/
def isNumberPart (c : Char) : Bool :=
  ('0' ≤ c && c ≤ '9') || c == '.' || c == '-' || c == 'e'

/-- Embeds `isBoolPart` (lines 273-275). -/
def isBoolPart (c : Char) : Bool :=
  c == 't' || c == 'r' || c == 'u' || c == 'e' || c == 'f' || c == 'a' || c == 'l' || c == 's'

/-- Embeds `isValidBool` (line 277). -/
def isValidBool (boolean : String) : Bool := boolean == "true" || boolean == "false"

/-- Whitespace characters skipped by `std::strtod` (C locale `isspace`). -/
def isStrtodSpace (c : Char) : Bool :=
  c == ' ' || c == '\t' || c == '\n' || c == '\x0b' || c == '\x0c' || c == '\r'

/-- Drop one optional leading sign, as `strtod` does. -/
def dropSign : List Char → List Char
  | c :: r => if c == '+' || c == '-' then r else c :: r
  | [] => []

/-- Case-insensitive prefix test, used for the `inf`/`nan` forms of `strtod`. -/
def startsWithCI : List Char → List Char → Bool
  | [], _ => true
  | _ :: _, [] => false
  | a :: ps, b :: ls => (b.toLower == a) && startsWithCI ps ls

/-- Models the success condition of `std::stod` (cppreference, via `strtod`):
after optional whitespace and an optional sign, the input must begin with a
case-insensitive `inf`/`nan` form or a mantissa containing at least one decimal
digit (before or after an optional decimal point).  A malformed exponent or any
trailing garbage does not make `stod` throw, so it plays no role here; a hex
mantissa starts with the digit `0` and is therefore subsumed by the digit
test. -/
def stodParses (l : List Char) : Bool :=
  let m := dropSign (l.dropWhile isStrtodSpace)
  startsWithCI ['i', 'n', 'f'] m || startsWithCI ['n', 'a', 'n'] m ||
    (let ds := m.takeWhile Char.isDigit
     if ds.isEmpty then
       match m with
       | '.' :: r => !(r.takeWhile Char.isDigit).isEmpty
       | _ => false
     else true)

/-- Embeds `isValidNumber` (lines 263-271): `std::stod(number)` succeeds. -/
def isValidNumber (number : String) : Bool := stodParses number.toList

/-- Lookup in the embedded `unordered_map`: `find(key) != end()` plus
`at(key)`. -/
def mapFind (m : List (String × Nat)) (k : String) : Option Nat :=
  match m with
  | [] => none
  | (k', v) :: r => if k' == k then some v else mapFind r k

/-- Embeds `unordered_map::insert(\x7bkey, value\x7d)`: a no-op when the key is
already present (the C++ `insert` does not overwrite). -/
def mapInsert (m : List (String × Nat)) (k : String) (v : Nat) : List (String × Nat) :=
  if m.any (fun p => p.1 == k) then m else m ++ [(k, v)]

/-- Embeds `unordered_map::erase(key)`. -/
def mapErase (m : List (String × Nat)) (k : String) : List (String × Nat) :=
  m.filter (fun p => !(p.1 == k))

/-- Arena allocation of a fresh node; returns the new arena and the handle. -/
def alloc (heap : List JsonData) (d : JsonData) : List JsonData × Nat :=
  (heap ++ [d], heap.length)

/-- Embeds the whole mutable parser state of `class Json` (lines 228-243):
the member variables that carry over between chunks, plus the arena holding
every node allocated so far.  Stacks keep their top at the head. -/
structure ParserState where
  heap : List JsonData
  last_bracket_ : Char
  last_symbol_ : Char
  brackets_ : List Char
  keys_ : List String
  working_on_ : List Nat
  currently_working_on_ : Nat
  text_ : String
  quotes_open : Bool
  processing_key_ : Bool
  processing_bool_ : Bool
  processing_number_ : Bool
deriving DecidableEq

/-- Initial state of a `Json` object before `parseFile` runs (member
initializers, lines 228-243): the synthetic top-level array is node 0. -/
def initState : ParserState :=
  { heap := [mkNode .ARRAY]
    last_bracket_ := '\x00'
    last_symbol_ := '\x00'
    brackets_ := []
    keys_ := []
    working_on_ := []
    currently_working_on_ := 0
    text_ := ""
    quotes_open := false
    processing_key_ := true
    processing_bool_ := false
    processing_number_ := false }

/-- Attach a finished child to a parent container, consuming a pending key when
the parent is an object.  This is the block duplicated four times in the source
(lines 354-385 for scalar termination, 425-446 for bracket close): key check /
`No key found for value`, lazy allocation of the children container, and
`insert`/`push_back`; any other parent kind throws
`Can't append value to non-object or non-array`. -/
def attachValue (heap : List JsonData) (parent : Nat) (keys : List String) (child : Nat) :
    Except JErr (List JsonData × List String) :=
  match heap[parent]? with
  | none => .error .danglingHandle
  | some p =>
    match p.type_ with
    | .OBJECT =>
      match keys with
      | [] => .error .missingKey
      | k :: rest =>
        let m := p.object_data_.getD []
        .ok (heap.set parent { p with object_data_ := some (mapInsert m k child) }, rest)
    | .ARRAY =>
      let a := p.array_data_.getD []
      .ok (heap.set parent { p with array_data_ := some (a ++ [child]) }, keys)
    | _ => .error .invalidContainer

/-- Whitespace test inlined at the top of `processJson` (line 320). -/
def isWhitespace (c : Char) : Bool :=
  c == ' ' || c == '\n' || c == '\t' || c == '\r'

/-- Value-termination trigger of `processJson` (lines 341-345), verbatim:
comma after a non-closing-bracket character, closing bracket with a non-empty
token buffer, or comma/closing-brace/closing-square while a number or boolean
literal is being accumulated. -/
def terminationCond (c : Char) (s : ParserState) : Bool :=
  (c == ',' && !isClosingBracket s.last_symbol_)
    || (isClosingBracket c && !s.text_.isEmpty)
    || ((c == ',' || c == '\x7d' || c == ']') && (s.processing_number_ || s.processing_bool_))

/-- Value-termination block of `processJson` (lines 341-388): validate the
buffered literal when a number/boolean flag is set, clear the flags, build the
scalar node and attach it to the current container, clear the buffer.  The C++
constructs the scalar node inside each container branch; since an error
discards the whole state, allocating it up front is observably identical. -/
def termStep (c : Char) (s : ParserState) : Except JErr ParserState :=
  if terminationCond c s then
    if s.processing_number_ && !isValidNumber s.text_ then
      .error (.invalidNumber s.text_)
    else if s.processing_bool_ && !isValidBool s.text_ then
      .error (.invalidBool s.text_)
    else
      let s1 := { s with processing_number_ := false, processing_bool_ := false }
      let h1 := alloc s1.heap (mkTextNode s1.text_)
      match attachValue h1.1 s1.currently_working_on_ s1.keys_ h1.2 with
      | .error e => .error e
      | .ok (heap2, keys2) =>
        .ok { s1 with heap := heap2, keys_ := keys2, text_ := "" }
  else
    .ok s

/-- Bracket block of `processJson` (lines 390-447).  An opening bracket pushes
the bracket and the current node and starts a fresh object/array; the push of
`currently_working_on_` is unconditional here because the C++ handle is never
null (it starts at the synthetic array and is only ever replaced by fresh nodes
or popped ancestors).  A closing bracket validates the stack and the bracket
family, then re-attaches the finished node to the popped ancestor. -/
def bracketStep (c : Char) (s : ParserState) : Except JErr ParserState :=
  if isOpeningBracket c then
    let h1 := alloc s.heap (mkNode (if c == '\x7b' then .OBJECT else .ARRAY))
    .ok { s with
          brackets_ := c :: s.brackets_
          last_bracket_ := c
          working_on_ := s.currently_working_on_ :: s.working_on_
          heap := h1.1
          currently_working_on_ := h1.2 }
  else if isClosingBracket c then
    match s.brackets_ with
    | [] => .error .unbalancedBrackets
    | b :: restBr =>
      if !sameBracketType c b then
        .error .bracketMismatch
      else
        match s.working_on_ with
        | [] => .error .invalidContainer
        | parent :: restW =>
          match attachValue s.heap parent s.keys_ s.currently_working_on_ with
          | .error e => .error e
          | .ok (heap2, keys2) =>
            .ok { s with
                  brackets_ := restBr
                  last_bracket_ := c
                  currently_working_on_ := parent
                  working_on_ := restW
                  heap := heap2
                  keys_ := keys2 }
  else
    .ok s

/-- Key/value separator block of `processJson` (lines 325-329): on `:` push the
buffered key and clear the buffer. -/
def colonStep (c : Char) (s : ParserState) : ParserState :=
  if c == ':' then
    { s with processing_key_ := false, keys_ := s.text_ :: s.keys_, text_ := "" }
  else s

/-- Number-accumulation block of `processJson` (lines 331-334). -/
def numberStep (c : Char) (s : ParserState) : ParserState :=
  if isNumberPart c && !s.processing_bool_ then
    { s with processing_number_ := true, text_ := s.text_.push c }
  else s

/-- Boolean-accumulation block of `processJson` (lines 336-339). -/
def boolStep (c : Char) (s : ParserState) : ParserState :=
  if isBoolPart c && !s.processing_number_ then
    { s with processing_bool_ := true, text_ := s.text_.push c }
  else s

/-- Embeds `processJson` (lines 318-450): skip whitespace (returning before
`last_symbol_` is updated); on `:` push the buffered key; extend the buffer on
number/boolean alphabet characters, setting the matching flag; then the
value-termination block, the bracket block, and finally `last_symbol_ = c`. -/
def processJson (c : Char) (s : ParserState) : Except JErr ParserState :=
  if isWhitespace c then
    .ok s
  else
    match termStep c (boolStep c (numberStep c (colonStep c s))) with
    | .error e => .error e
    | .ok s4 =>
      match bracketStep c s4 with
      | .error e => .error e
      | .ok s5 => .ok { s5 with last_symbol_ := c }

/-- Per-character dispatch of `parseBuffer` (lines 298-316): a quote toggles
quote mode (clearing the buffer on entry); inside quotes every character is
appended verbatim; outside quotes the character goes to `processJson`. -/
def feedChar (s : ParserState) (c : Char) : Except JErr ParserState :=
  if c == '"' then
    if s.quotes_open then .ok { s with quotes_open := false }
    else .ok { s with text_ := "", quotes_open := true }
  else if s.quotes_open then
    .ok { s with text_ := s.text_.push c }
  else
    processJson c s

/-- Embeds `parseBuffer` (lines 298-316): feed one chunk character by
character. -/
def parseBuffer (s : ParserState) : List Char → Except JErr ParserState
  | [] => .ok s
  | c :: rest =>
    match feedChar s c with
    | .error e => .error e
    | .ok s' => parseBuffer s' rest

/-- Chunked read loop of `parseFile` (lines 286-289): feed each chunk in turn,
the state persisting across chunk boundaries. -/
def parseChunksLoop (s : ParserState) : List (List Char) → Except JErr ParserState
  | [] => .ok s
  | ch :: rest =>
    match parseBuffer s ch with
    | .error e => .error e
    | .ok s' => parseChunksLoop s' rest

/-- Tail of `parseFile` (lines 291-295): reject an unclosed bracket, then
extract the sole element of the synthetic top-level array.  A null
`array_data_` makes the C++ dereference a null pointer; an empty array makes
`std::vector::at(0)` throw `std::out_of_range`. -/
def finishParse (s : ParserState) : Except JErr (List JsonData × Nat) :=
  match s.brackets_ with
  | b :: _ => .error (.unclosedBracket b)
  | [] =>
    match s.heap[s.currently_working_on_]? with
    | none => .error .danglingHandle
    | some root =>
      match root.array_data_ with
      | none => .error .nullDeref
      | some [] => .error .outOfRange
      | some (r :: _) => .ok (s.heap, r)

/-- Embeds `parseFile` (lines 285-296) driven by an already-chunked input. -/
def parseFile (chunks : List (List Char)) : Except JErr (List JsonData × Nat) :=
  match parseChunksLoop initState chunks with
  | .error e => .error e
  | .ok s => finishParse s

/-- Whole-document parse: the degenerate single-chunk run of `parseFile`. -/
def parseWhole (doc : List Char) : Except JErr (List JsonData × Nat) :=
  match parseBuffer initState doc with
  | .error e => .error e
  | .ok s => finishParse s

/-- Whole-document parse from a string literal. -/
def parseDoc (doc : String) : Except JErr (List JsonData × Nat) :=
  parseWhole doc.toList

/-- Returns `true` when construction completes without a thrown error. -/
def parseSucceeds (doc : String) : Bool :=
  match parseDoc doc with
  | .ok _ => true
  | .error _ => false

/-- Embeds `ov_shared_ptr::operator==` (lines 109-111): raw pointer identity,
i.e. arena-index identity (two null handles are equal). -/
def handleEq (a b : Option Nat) : Bool := a == b

/-- Embeds `ov_shared_ptr::operator[](const std::string&)` (lines 73-87):
null-handle check, kind check, `find`, `at`.  When `object_data_` is still the
null pointer of its initializer the C++ calls `find` through it, a null
dereference. -/
def getKey (heap : List JsonData) (h : Option Nat) (key : String) :
    Except JErr (Option Nat) :=
  match h with
  | none => .error .nullHandle
  | some i =>
    match heap[i]? with
    | none => .error .danglingHandle
    | some d =>
      if d.type_ ≠ .OBJECT then .error .notAnObject
      else
        match d.object_data_ with
        | none => .error .nullDeref
        | some m =>
          match mapFind m key with
          | none => .error .keyNotFound
          | some v => .ok (some v)

/-- Embeds `ov_shared_ptr::operator[](const int)` (lines 89-103).  The bounds
test `index < 0 || index >= array_data_->size()` short-circuits: a negative
index throws before `array_data_` is touched, a non-negative one dereferences
it first (null when the array is empty under lazy allocation). -/
def getIndex (heap : List JsonData) (h : Option Nat) (index : Int) :
    Except JErr (Option Nat) :=
  match h with
  | none => .error .nullHandle
  | some i =>
    match heap[i]? with
    | none => .error .danglingHandle
    | some d =>
      if d.type_ ≠ .ARRAY then .error .notAnArray
      else if index < 0 then .error .outOfRange
      else
        match d.array_data_ with
        | none => .error .nullDeref
        | some arr =>
          if (arr.length : Int) ≤ index then .error .outOfRange
          else
            match arr[index.toNat]? with
            | none => .error .danglingHandle
            | some v => .ok (some v)

/-- Embeds `ov_shared_ptr::del(const std::string&)` (lines 37-51): same checks
as key access, then `erase`. -/
def delKey (heap : List JsonData) (h : Option Nat) (key : String) :
    Except JErr (List JsonData) :=
  match h with
  | none => .error .nullHandle
  | some i =>
    match heap[i]? with
    | none => .error .danglingHandle
    | some d =>
      if d.type_ ≠ .OBJECT then .error .notAnObject
      else
        match d.object_data_ with
        | none => .error .nullDeref
        | some m =>
          match mapFind m key with
          | none => .error .keyNotFound
          | some _ => .ok (heap.set i { d with object_data_ := some (mapErase m key) })

/-- Embeds `ov_shared_ptr::del(const int)` (lines 53-71): bounds checks as in
index access, then `clear()` when the array has exactly one element, otherwise
`erase(begin() + index)`. -/
def delIndex (heap : List JsonData) (h : Option Nat) (index : Int) :
    Except JErr (List JsonData) :=
  match h with
  | none => .error .nullHandle
  | some i =>
    match heap[i]? with
    | none => .error .danglingHandle
    | some d =>
      if d.type_ ≠ .ARRAY then .error .notAnArray
      else if index < 0 then .error .outOfRange
      else
        match d.array_data_ with
        | none => .error .nullDeref
        | some arr =>
          if (arr.length : Int) ≤ index then .error .outOfRange
          else
            let arr' := if arr.length == 1 then [] else arr.eraseIdx index.toNat
            .ok (heap.set i { d with array_data_ := some arr' })

/-- Embeds `ov_shared_ptr::operator std::string` (lines 121-131): null-handle
check, kind check, return the stored text verbatim. -/
def toStringConv (heap : List JsonData) (h : Option Nat) : Except JErr String :=
  match h with
  | none => .error .nullHandle
  | some i =>
    match heap[i]? with
    | none => .error .danglingHandle
    | some d =>
      if d.type_ ≠ .STRING then .error .notAScalar
      else .ok d.string_data_

/-- Embeds `Json::operator[](const std::string&)` (lines 212-222): the root
access checks `object_data_ == nullptr` (not the kind tag) and then does the
`find`/`at` pair. -/
def rootGetKey (heap : List JsonData) (root : Nat) (key : String) :
    Except JErr (Option Nat) :=
  match heap[root]? with
  | none => .error .danglingHandle
  | some d =>
    match d.object_data_ with
    | none => .error .notAnObject
    | some m =>
      match mapFind m key with
      | none => .error .keyNotFound
      | some v => .ok (some v)

/-- Parse a document and read one top-level key as text: the user-visible
round trip `Json(file)[key]` followed by `std::string(...)`. -/
def accessText (doc key : String) : Except JErr String :=
  match parseDoc doc with
  | .error e => .error e
  | .ok (heap, r) =>
    match rootGetKey heap r key with
    | .error e => .error e
    | .ok h => toStringConv heap h

/-- State invariant: the number and boolean accumulation flags are never set
simultaneously (each accumulation guard requires the other flag clear, and the
termination block clears both together). -/
def FlagsOK (s : ParserState) : Prop :=
  (s.processing_number_ && s.processing_bool_) = false

/-- Arena invariant: every node allocated so far carries a committed kind.  The
parser only ever allocates nodes whose kind is set right away, so the pre-parse
default `UNINIT` never survives. -/
def HeapOK (heap : List JsonData) : Prop :=
  ∀ d ∈ heap, d.type_ ≠ JsonType.UNINIT

/-- Reachability of node `i` from node `root` through the children containers,
following only lookups that actually succeed. -/
inductive Reachable (heap : List JsonData) (root : Nat) : Nat → Prop
  | refl : Reachable heap root root
  | objChild {j d m k i} : Reachable heap root j → heap[j]? = some d →
      d.object_data_ = some m → (k, i) ∈ m → Reachable heap root i
  | arrChild {j d a i} : Reachable heap root j → heap[j]? = some d →
      d.array_data_ = some a → i ∈ a → Reachable heap root i

theorem parseBuffer_append (l1 : List Char) :
    ∀ (s : ParserState) (l2 : List Char),
      parseBuffer s (l1 ++ l2)
        = match parseBuffer s l1 with
          | .error e => .error e
          | .ok s' => parseBuffer s' l2 := by
  induction l1 with
  | nil => intro s l2; rfl
  | cons c r ih =>
    intro s l2
    simp only [List.cons_append, parseBuffer]
    cases h : feedChar s c with
    | error e => rfl
    | ok s' => exact ih s' l2

theorem parseChunksLoop_flatten :
    ∀ (chunks : List (List Char)) (s : ParserState),
      parseChunksLoop s chunks = parseBuffer s chunks.flatten := by
  intro chunks
  induction chunks with
  | nil => intro s; rfl
  | cons ch rest ih =>
    intro s
    simp only [parseChunksLoop, List.flatten_cons, parseBuffer_append]
    cases h : parseBuffer s ch with
    | error e => rfl
    | ok s' => exact ih s'

/-- C3: parsing a document fed to the parser chunk by chunk gives exactly the
same resulting state — hence the same tree or the same failure — as parsing the
concatenated document in one piece: the whole `ParserState` (bracket stack,
pending keys, ancestor stack, current node, token buffer, quote and literal
flags, last-seen characters, arena) carries over unchanged across every chunk
boundary, wherever the boundaries fall. -/
theorem C3_chunked_equals_whole :
    (∀ (s : ParserState) (chunks : List (List Char)),
        parseChunksLoop s chunks = parseBuffer s chunks.flatten)
      ∧ ∀ chunks : List (List Char), parseFile chunks = parseWhole chunks.flatten := by
  constructor
  · intro s chunks
    exact parseChunksLoop_flatten chunks s
  · intro chunks
    unfold parseFile parseWhole
    rw [parseChunksLoop_flatten]

/-- C1 counterexample: the input text with a trailing comma before the closing
brace does NOT fail construction — the parser completes successfully. -/
theorem C1_trailing_comma_counterexample :
    parseSucceeds "\x7b\"a\": 1,\x7d" = true := by decide

/-- C1 (amended): construction of the tree for the trailing-comma input
succeeds; the trailing comma is silently ignored and the finished tree maps the
key to the value text parsed before the comma. -/
theorem C1_trailing_comma_amended :
    parseSucceeds "\x7b\"a\": 1,\x7d" = true
      ∧ accessText "\x7b\"a\": 1,\x7d" "a" = .ok "1" :=
  ⟨by decide, by decide⟩

/-- C2: on an Object-kind node whose children container was never allocated
(the lazily absent container of an empty object, here parsed from a nested
empty object), key access and delete-by-key do not fail with `KeyNotFound` —
they dereference the null children container (undefined behavior in the C++,
`JErr.nullDeref` in the model). -/
theorem C2_absent_children_null_deref :
    (do
        let hr ← parseDoc "\x7b\"a\": \x7b\x7d\x7d"
        let v ← rootGetKey hr.1 hr.2 "a"
        getKey hr.1 v "x") = .error .nullDeref
      ∧ (do
          let hr ← parseDoc "\x7b\"a\": \x7b\x7d\x7d"
          let v ← rootGetKey hr.1 hr.2 "a"
          let _ ← delKey hr.1 v "x"
          pure 0) = .error .nullDeref
      ∧ (do
          let hr ← parseDoc "\x7b\"a\": \x7b\"b\": 1\x7d\x7d"
          let v ← rootGetKey hr.1 hr.2 "a"
          getKey hr.1 v "x") = .error .keyNotFound :=
  ⟨by decide, by decide, by decide⟩

/-- C5: converting a String-kind node to text returns the stored literal text
verbatim; inside quote mode every non-quote character is appended to the token
buffer verbatim (no escape decoding — the backslash input below survives
untouched); and the parser stores exactly the text between the quotes
respectively the trimmed bare literal token (Scenario C: `12.5e2` round-trips
exactly). -/
theorem C5_scalar_round_trip :
    (∀ (heap : List JsonData) (i : Nat) (d : JsonData), heap[i]? = some d →
        d.type_ = JsonType.STRING → toStringConv heap (some i) = .ok d.string_data_)
      ∧ (∀ (s : ParserState) (c : Char), s.quotes_open = true → (c == '"') = false →
          feedChar s c = .ok { s with text_ := s.text_.push c })
      ∧ accessText "\x7b\"n\": 12.5e2\x7d" "n" = .ok "12.5e2"
      ∧ accessText "\x7b\"a\": \"x\\ny\"\x7d" "a" = .ok "x\\ny" := by
  refine ⟨?_, ?_, by decide, by decide⟩
  · intro heap i d hg ht
    simp [toStringConv, hg, ht]
  · intro s c hq hc
    simp [feedChar, hq, hc]

theorem C5_scalar_round_trip_witness :
    toStringConv [mkTextNode "v"] (some 0) = .ok "v"
      ∧ feedChar { initState with quotes_open := true } 'q'
          = .ok { initState with quotes_open := true, text_ := "q" } :=
  ⟨C5_scalar_round_trip.1 [mkTextNode "v"] 0 (mkTextNode "v") (by decide) (by decide),
   C5_scalar_round_trip.2.1 { initState with quotes_open := true } 'q' (by decide) (by decide)⟩

theorem flagsOK_colonStep (c : Char) (s : ParserState) (h : FlagsOK s) :
    FlagsOK (colonStep c s) := by
  simp only [FlagsOK, colonStep]
  split
  · exact h
  · exact h

theorem flagsOK_numberStep (c : Char) (s : ParserState) (h : FlagsOK s) :
    FlagsOK (numberStep c s) := by
  simp only [FlagsOK, numberStep]
  split
  · next hc =>
    simp only [Bool.and_eq_true, Bool.not_eq_true'] at hc
    simpa using hc.2
  · exact h

theorem flagsOK_boolStep (c : Char) (s : ParserState) (h : FlagsOK s) :
    FlagsOK (boolStep c s) := by
  simp only [FlagsOK, boolStep]
  split
  · next hc =>
    simp only [Bool.and_eq_true, Bool.not_eq_true'] at hc
    simpa using hc.2
  · exact h

theorem flagsOK_termStep {c : Char} {s s' : ParserState} (h : termStep c s = .ok s')
    (hf : FlagsOK s) : FlagsOK s' := by
  simp only [termStep, alloc] at h
  split at h
  · split at h
    · simp at h
    · split at h
      · simp at h
      · split at h
        · simp at h
        · next heap2 keys2 hatt =>
          cases h
          simp [FlagsOK]
  · cases h
    exact hf

theorem flagsOK_bracketStep {c : Char} {s s' : ParserState} (h : bracketStep c s = .ok s')
    (hf : FlagsOK s) : FlagsOK s' := by
  simp only [bracketStep, alloc] at h
  split at h
  · cases h
    exact hf
  · split at h
    · split at h
      · simp at h
      · split at h
        · simp at h
        · split at h
          · simp at h
          · split at h
            · simp at h
            · next heap2 keys2 hatt =>
              cases h
              exact hf
    · cases h
      exact hf

theorem flagsOK_processJson {c : Char} {s s' : ParserState} (h : processJson c s = .ok s')
    (hf : FlagsOK s) : FlagsOK s' := by
  simp only [processJson] at h
  split at h
  · cases h
    exact hf
  · split at h
    · simp at h
    · next s4 hterm =>
      split at h
      · simp at h
      · next s5 hbr =>
        cases h
        have h3 : FlagsOK (boolStep c (numberStep c (colonStep c s))) :=
          flagsOK_boolStep c _ (flagsOK_numberStep c _ (flagsOK_colonStep c s hf))
        have h5 : FlagsOK s5 := flagsOK_bracketStep hbr (flagsOK_termStep hterm h3)
        exact h5

theorem flagsOK_feedChar {s s' : ParserState} {c : Char} (h : feedChar s c = .ok s')
    (hf : FlagsOK s) : FlagsOK s' := by
  simp only [feedChar] at h
  split at h
  · split at h <;> (cases h; exact hf)
  · split at h
    · cases h
      exact hf
    · exact flagsOK_processJson h hf

theorem parseBuffer_flagsOK :
    ∀ (l : List Char) (s s' : ParserState),
      parseBuffer s l = .ok s' → FlagsOK s → FlagsOK s' := by
  intro l
  induction l with
  | nil =>
    intro s s' h hf
    cases h
    exact hf
  | cons c r ih =>
    intro s s' h hf
    simp only [parseBuffer] at h
    cases hc : feedChar s c with
    | error e => rw [hc] at h; simp at h
    | ok s1 =>
      rw [hc] at h
      exact ih s1 s' h (flagsOK_feedChar hc hf)

theorem termination_char {c : Char} {s : ParserState} (h : terminationCond c s = true) :
    c = ',' ∨ c = '\x7d' ∨ c = ']' := by
  simp only [terminationCond, Bool.or_eq_true, Bool.and_eq_true, beq_iff_eq,
    isClosingBracket] at h
  tauto

/-- C6: whenever the value-termination trigger fires, the buffered literal is
validated: a set number flag with a buffer `std::stod` cannot parse aborts with
`InvalidNumberLiteral`, a set boolean flag with a buffer other than exactly
`true`/`false` aborts with `InvalidBooleanLiteral`; in particular Scenario F
fails with `InvalidBooleanLiteral` carrying the text `tru`.  The boolean part
carries the extra hypothesis that the number flag is clear, mirroring the
code's else-if; the last conjunct shows the two flags are never set together
in any state the parser can actually reach, so the hypothesis is vacuous
there. -/
theorem C6_literal_validation :
    (∀ (c : Char) (s : ParserState), terminationCond c s = true →
        s.processing_number_ = true → isValidNumber s.text_ = false →
        processJson c s = .error (.invalidNumber s.text_))
      ∧ (∀ (c : Char) (s : ParserState), terminationCond c s = true →
          s.processing_number_ = false → s.processing_bool_ = true →
          isValidBool s.text_ = false →
          processJson c s = .error (.invalidBool s.text_))
      ∧ parseDoc "\x7b\"a\": tru\x7d" = .error (.invalidBool "tru")
      ∧ (∀ (l : List Char) (s' : ParserState), parseBuffer initState l = .ok s' →
          (s'.processing_number_ && s'.processing_bool_) = false) := by
  refine ⟨?_, ?_, by decide, ?_⟩
  · intro c s h hn hv
    rcases termination_char h with rfl | rfl | rfl <;>
      simp [processJson, isWhitespace, colonStep, numberStep, boolStep, isNumberPart,
        isBoolPart, termStep, h, hn, hv]
  · intro c s h hn hb hv
    rcases termination_char h with rfl | rfl | rfl <;>
      simp [processJson, isWhitespace, colonStep, numberStep, boolStep, isNumberPart,
        isBoolPart, termStep, h, hn, hb, hv]
  · intro l s' h
    exact parseBuffer_flagsOK l initState s' h rfl

theorem C6_literal_validation_witness :
    processJson ',' { initState with processing_number_ := true, text_ := "." }
        = .error (.invalidNumber ".")
      ∧ processJson ',' { initState with processing_bool_ := true, text_ := "tru" }
        = .error (.invalidBool "tru") :=
  ⟨C6_literal_validation.1 ',' _ (by decide) (by decide) (by decide),
   C6_literal_validation.2.1 ',' _ (by decide) (by decide) (by decide) (by decide)⟩

/-- C7: handle equality is raw-pointer identity — true exactly when the two
handles are the same arena index (or both null) — and repeated key or index
accesses with the same key/index return handles that compare equal and convert
to identical text. -/
theorem C7_identity_equality :
    (∀ a b : Option Nat, handleEq a b = true ↔ a = b)
      ∧ (∀ (heap : List JsonData) (h : Option Nat) (key : String) (c1 c2 : Option Nat),
          getKey heap h key = .ok c1 → getKey heap h key = .ok c2 →
          handleEq c1 c2 = true ∧ toStringConv heap c1 = toStringConv heap c2)
      ∧ (∀ (heap : List JsonData) (h : Option Nat) (i : Int) (c1 c2 : Option Nat),
          getIndex heap h i = .ok c1 → getIndex heap h i = .ok c2 →
          handleEq c1 c2 = true ∧ toStringConv heap c1 = toStringConv heap c2) := by
  refine ⟨?_, ?_, ?_⟩
  · intro a b
    simp [handleEq]
  · intro heap h key c1 c2 h1 h2
    have h12 : Except.ok (ε := JErr) c1 = .ok c2 := h1.symm.trans h2
    cases h12
    exact ⟨by simp [handleEq], rfl⟩
  · intro heap h i c1 c2 h1 h2
    have h12 : Except.ok (ε := JErr) c1 = .ok c2 := h1.symm.trans h2
    cases h12
    exact ⟨by simp [handleEq], rfl⟩

theorem C7_identity_equality_witness :
    handleEq (some 1) (some 1) = true
      ∧ toStringConv [{ type_ := JsonType.OBJECT, object_data_ := some [("k", 1)] },
            mkTextNode "v"] (some 1)
          = toStringConv [{ type_ := JsonType.OBJECT, object_data_ := some [("k", 1)] },
            mkTextNode "v"] (some 1) :=
  C7_identity_equality.2.1
    [{ type_ := JsonType.OBJECT, object_data_ := some [("k", 1)] }, mkTextNode "v"]
    (some 0) "k" (some 1) (some 1) (by decide) (by decide)

/-- C9: outside quote mode, a character that is not whitespace, not `:`, not a
comma, not a bracket, and outside both the number and the boolean alphabets is
consumed by the transition function without any error and without touching the
token buffer, the stacks, the arena, or the flags — it is only recorded as the
last character seen. -/
theorem C9_inert_characters (c : Char) (s : ParserState)
    (hw : isWhitespace c = false) (hcolon : (c == ':') = false)
    (hcomma : (c == ',') = false) (hop : isOpeningBracket c = false)
    (hcl : isClosingBracket c = false) (hnum : isNumberPart c = false)
    (hbool : isBoolPart c = false) :
    processJson c s = .ok { s with last_symbol_ := c } := by
  have h7d : (c == '\x7d') = false := by
    simp only [isClosingBracket, Bool.or_eq_false_iff] at hcl
    exact hcl.1
  have h5d : (c == ']') = false := by
    simp only [isClosingBracket, Bool.or_eq_false_iff] at hcl
    exact hcl.2
  have hterm : terminationCond c s = false := by
    simp [terminationCond, hcomma, hcl, h7d, h5d]
  simp [processJson, hw, colonStep, hcolon, numberStep, hnum, boolStep, hbool,
    termStep, hterm, bracketStep, hop, hcl]

theorem C9_inert_characters_witness :
    processJson 'x' initState = .ok { initState with last_symbol_ := 'x' } :=
  C9_inert_characters 'x' initState rfl rfl rfl rfl rfl rfl rfl

theorem mapFind_any {m : List (String × Nat)} {k : String} {w : Nat}
    (h : mapFind m k = some w) : m.any (fun p => p.1 == k) = true := by
  induction m with
  | nil => simp [mapFind] at h
  | cons p r ih =>
    obtain ⟨k', v⟩ := p
    cases hk : (k' == k) with
    | true => simp [List.any_cons, hk]
    | false =>
      simp only [mapFind, hk, Bool.false_eq_true, if_false] at h
      simp [List.any_cons, ih h]

/-- C10: inserting under a key that is already present is a no-op (the C++
`unordered_map::insert` keeps the first binding), so an input object repeating
a key maps it to the value of the first occurrence, later occurrences being
discarded silently with no error. -/
theorem C10_duplicate_keys :
    (∀ (m : List (String × Nat)) (k : String) (v w : Nat),
        mapFind m k = some w → mapInsert m k v = m)
      ∧ accessText "\x7b\"a\": 1, \"a\": 2\x7d" "a" = .ok "1"
      ∧ parseSucceeds "\x7b\"a\": 1, \"a\": 2\x7d" = true := by
  refine ⟨?_, by decide, by decide⟩
  intro m k v w h
  simp [mapInsert, mapFind_any h]

theorem C10_duplicate_keys_witness :
    mapInsert [("a", 5)] "a" 9 = [("a", 5)] :=
  C10_duplicate_keys.1 [("a", 5)] "a" 9 5 (by decide)

theorem eraseIdx_getElem?_of_lt {α : Type} :
    ∀ (l : List α) (i j : Nat), i < j → (l.eraseIdx i)[j - 1]? = l[j]? := by
  intro l
  induction l with
  | nil => intro i j _; simp [List.eraseIdx]
  | cons x xs ih =>
    intro i j hij
    cases i with
    | zero =>
      obtain ⟨j', rfl⟩ : ∃ j', j = j' + 1 := ⟨j - 1, (Nat.succ_pred_eq_of_pos hij).symm⟩
      simp [List.eraseIdx]
    | succ i' =>
      cases j with
      | zero => exact absurd hij (by omega)
      | succ j' =>
        cases j' with
        | zero => exact absurd hij (by omega)
        | succ j'' =>
          have := ih i' (j'' + 1) (by omega)
          simpa [List.eraseIdx] using this

/-- C4: deleting a valid index `i` from an Array-kind node of length `n`
succeeds and leaves the array `arr.eraseIdx i`, which has length `n - 1`, keeps
every element that was at an index greater than `i` at the index one below its
prior position, and is the empty array (not an error) when `n = 1`. -/
theorem C4_delete_index (heap : List JsonData) (i : Nat) (d : JsonData) (arr : List Nat)
    (idx : Int) (hg : heap[i]? = some d) (ht : d.type_ = JsonType.ARRAY)
    (ha : d.array_data_ = some arr) (h0 : 0 ≤ idx) (hlt : idx < (arr.length : Int)) :
    delIndex heap (some i) idx
        = .ok (heap.set i { d with array_data_ := some (arr.eraseIdx idx.toNat) })
      ∧ (arr.eraseIdx idx.toNat).length = arr.length - 1
      ∧ (∀ j : Nat, idx.toNat < j → (arr.eraseIdx idx.toNat)[j - 1]? = arr[j]?)
      ∧ (arr.length = 1 → arr.eraseIdx idx.toNat = []) := by
  have hnat : idx.toNat < arr.length := by omega
  have hsingle : arr.length = 1 → arr.eraseIdx idx.toNat = [] := by
    intro h1
    have h00 : idx.toNat = 0 := by omega
    obtain ⟨a, rfl⟩ := List.length_eq_one.mp h1
    rw [h00]
    rfl
  refine ⟨?_, ?_, ?_, hsingle⟩
  · have harr : (if arr.length == 1 then [] else arr.eraseIdx idx.toNat)
        = arr.eraseIdx idx.toNat := by
      cases hl : arr.length == 1 with
      | true => rw [if_pos rfl, hsingle (by simpa using hl)]
      | false => rw [if_neg (by simp)]
    simp only [delIndex, hg, ha]
    rw [if_neg (by simp [ht]), if_neg (by omega), if_neg (by omega), harr]
  · rw [List.length_eraseIdx, if_pos hnat]
  · intro j hj
    exact eraseIdx_getElem?_of_lt arr idx.toNat j hj

theorem C4_delete_index_witness :
    delIndex [{ type_ := JsonType.ARRAY, array_data_ := some [7, 8] }] (some 0) 0
      = .ok [{ type_ := JsonType.ARRAY, array_data_ := some [8] }] :=
  (C4_delete_index [{ type_ := JsonType.ARRAY, array_data_ := some [7, 8] }] 0
    { type_ := JsonType.ARRAY, array_data_ := some [7, 8] } [7, 8] 0
    (by decide) (by decide) (by decide) (by decide) (by decide)).1

theorem heapOK_append {heap : List JsonData} {d : JsonData} (h : HeapOK heap)
    (hd : d.type_ ≠ JsonType.UNINIT) : HeapOK (heap ++ [d]) := by
  intro x hx
  rcases List.mem_append.mp hx with hx | hx
  · exact h x hx
  · rw [List.mem_singleton] at hx
    exact hx ▸ hd

theorem heapOK_set {heap : List JsonData} {i : Nat} {d : JsonData} (h : HeapOK heap)
    (hd : d.type_ ≠ JsonType.UNINIT) : HeapOK (heap.set i d) := by
  intro x hx
  rcases List.mem_or_eq_of_mem_set hx with hx | rfl
  · exact h x hx
  · exact hd

theorem heapOK_lookup {heap : List JsonData} {i : Nat} {d : JsonData} (h : HeapOK heap)
    (hg : heap[i]? = some d) : d.type_ ≠ JsonType.UNINIT := by
  obtain ⟨hlt, rfl⟩ := List.getElem?_eq_some.mp hg
  exact h _ (List.getElem_mem hlt)

theorem attachValue_heapOK {heap : List JsonData} {p : Nat} {ks : List String} {ch : Nat}
    {heap2 : List JsonData} {ks2 : List String} (hOK : HeapOK heap)
    (ha : attachValue heap p ks ch = .ok (heap2, ks2)) : HeapOK heap2 := by
  simp only [attachValue] at ha
  split at ha
  · exact absurd ha (by simp)
  · rename_i pd hg
    have hpd : pd.type_ ≠ JsonType.UNINIT := heapOK_lookup hOK hg
    split at ha
    · split at ha
      · exact absurd ha (by simp)
      · cases ha
        exact heapOK_set hOK hpd
    · cases ha
      exact heapOK_set hOK hpd
    · exact absurd ha (by simp)

theorem termStep_heapOK {c : Char} {s s' : ParserState} (hOK : HeapOK s.heap)
    (h : termStep c s = .ok s') : HeapOK s'.heap := by
  simp only [termStep, alloc] at h
  split at h
  · split at h
    · simp at h
    · split at h
      · simp at h
      · split at h
        · simp at h
        · next heap2 keys2 hatt =>
          cases h
          exact attachValue_heapOK (heapOK_append hOK (by simp [mkTextNode])) hatt
  · cases h
    exact hOK

theorem bracketStep_heapOK {c : Char} {s s' : ParserState} (hOK : HeapOK s.heap)
    (h : bracketStep c s = .ok s') : HeapOK s'.heap := by
  simp only [bracketStep, alloc] at h
  split at h
  · cases h
    refine heapOK_append hOK ?_
    simp only [mkNode]
    split <;> decide
  · split at h
    · split at h
      · simp at h
      · split at h
        · simp at h
        · split at h
          · simp at h
          · split at h
            · simp at h
            · next heap2 keys2 hatt =>
              cases h
              exact attachValue_heapOK hOK hatt
    · cases h
      exact hOK

theorem colonStep_heap (c : Char) (s : ParserState) : (colonStep c s).heap = s.heap := by
  simp only [colonStep]
  split <;> rfl

theorem numberStep_heap (c : Char) (s : ParserState) : (numberStep c s).heap = s.heap := by
  simp only [numberStep]
  split <;> rfl

theorem boolStep_heap (c : Char) (s : ParserState) : (boolStep c s).heap = s.heap := by
  simp only [boolStep]
  split <;> rfl

theorem processJson_heapOK {c : Char} {s s' : ParserState} (hOK : HeapOK s.heap)
    (h : processJson c s = .ok s') : HeapOK s'.heap := by
  simp only [processJson] at h
  split at h
  · cases h
    exact hOK
  · split at h
    · simp at h
    · next s4 hterm =>
      split at h
      · simp at h
      · next s5 hbr =>
        cases h
        have h3 : HeapOK (boolStep c (numberStep c (colonStep c s))).heap := by
          rw [boolStep_heap, numberStep_heap, colonStep_heap]
          exact hOK
        have h5 : HeapOK s5.heap := bracketStep_heapOK (termStep_heapOK h3 hterm) hbr
        exact h5

theorem feedChar_heapOK {s s' : ParserState} {c : Char} (hOK : HeapOK s.heap)
    (h : feedChar s c = .ok s') : HeapOK s'.heap := by
  simp only [feedChar] at h
  split at h
  · split at h <;> (cases h; exact hOK)
  · split at h
    · cases h
      exact hOK
    · exact processJson_heapOK hOK h

theorem parseBuffer_heapOK :
    ∀ (l : List Char) (s s' : ParserState),
      parseBuffer s l = .ok s' → HeapOK s.heap → HeapOK s'.heap := by
  intro l
  induction l with
  | nil =>
    intro s s' h hOK
    cases h
    exact hOK
  | cons c r ih =>
    intro s s' h hOK
    simp only [parseBuffer] at h
    cases hf : feedChar s c with
    | error e => rw [hf] at h; simp at h
    | ok s1 =>
      rw [hf] at h
      exact ih s1 s' h (feedChar_heapOK hOK hf)

theorem initState_heapOK : HeapOK initState.heap := by
  intro d hd
  simp only [initState] at hd
  rw [List.mem_singleton] at hd
  subst hd
  decide

theorem parseWhole_heapOK {doc : List Char} {heap : List JsonData} {root : Nat}
    (h : parseWhole doc = .ok (heap, root)) : HeapOK heap := by
  simp only [parseWhole] at h
  cases hb : parseBuffer initState doc with
  | error e => rw [hb] at h; simp at h
  | ok s =>
    rw [hb] at h
    have hOK : HeapOK s.heap := parseBuffer_heapOK doc initState s hb initState_heapOK
    simp only [finishParse] at h
    split at h
    · simp at h
    · split at h
      · simp at h
      · split at h
        · simp at h
        · simp at h
        · cases h
          exact hOK

/-- C8: on every input whose parse succeeds, every node reachable from the
exposed root through the children containers has kind String, Object, or
Array — the pre-parse default kind `UNINIT` never appears in a finished
tree. -/
theorem C8_no_uninit_reachable (doc : List Char) (heap : List JsonData) (root : Nat)
    (hp : parseWhole doc = .ok (heap, root)) :
    ∀ (i : Nat) (d : JsonData), Reachable heap root i → heap[i]? = some d →
      d.type_ ≠ JsonType.UNINIT := by
  intro i d _ hg
  exact heapOK_lookup (parseWhole_heapOK hp) hg

theorem C8_no_uninit_reachable_witness :
    (mkNode JsonType.ARRAY).type_ ≠ JsonType.UNINIT :=
  C8_no_uninit_reachable "[]".toList
    [{ mkNode JsonType.ARRAY with array_data_ := some [1] }, mkNode JsonType.ARRAY] 1
    (by decide) 1 (mkNode JsonType.ARRAY) Reachable.refl (by decide)

end QJson
